import Mathlib

/-!
Verification of the distributed web-crawler coordinator/worker core
(master_node.py, crawler_node.py, user.py) against its specification.

The Python sources are shallowly embedded: pure functions become Lean
functions, the mutable object state (MasterNode, Crawler) becomes explicit
state records, network calls become oracle functions supplied in an
environment record, and Python exceptions become Except results.
Times are modelled as integers (only order comparisons matter).

The repository leans on CPython's urllib.parse and urllib.robotparser;
those library functions are embedded here as well (from CPython 3.11
sources) because the behaviour of normalize_url, robots handling and
link handling depends on them.
-/

namespace Py

/-- Python truthiness cut-off for `_WHATWG_C0_CONTROL_OR_SPACE`:
C0 control characters and the space character (code points 0x00-0x20). -/
def c0OrSpace (c : Char) : Bool := c.toNat ≤ 0x20

/-- Drop leading characters satisfying `p` (Python `str.lstrip`). -/
def lstripWhile (p : Char → Bool) : List Char → List Char
  | [] => []
  | c :: cs => if p c then lstripWhile p cs else c :: cs

/-- Drop trailing characters satisfying `p` (Python `str.rstrip`). -/
def rstripWhile (p : Char → Bool) (l : List Char) : List Char :=
  (lstripWhile p l.reverse).reverse

/-- Python `str.strip` with no argument: strips whitespace on both ends.
Whitespace set restricted to the Latin-1 range of Python's definition. -/
def pyWhitespace (c : Char) : Bool :=
  c.toNat = 32 ∨ (9 ≤ c.toNat ∧ c.toNat ≤ 13) ∨ (28 ≤ c.toNat ∧ c.toNat ≤ 31) ∨
    c.toNat = 133 ∨ c.toNat = 160

def pyStrip (l : List Char) : List Char :=
  rstripWhile pyWhitespace (lstripWhile pyWhitespace l)

/-- Index of the first occurrence of `c` (Python `str.find`, `none` for -1). -/
def charIdx (c : Char) : List Char → Option Nat
  | [] => none
  | d :: ds => if d = c then some 0 else (charIdx c ds).map (· + 1)

/-- Python `str.find(c, start)`. -/
def charIdxFrom (c : Char) (l : List Char) (start : Nat) : Option Nat :=
  (charIdx c (l.drop start)).map (· + start)

/-- Index of the last occurrence of `c` (Python `str.rfind`). -/
def charRIdx (c : Char) (l : List Char) : Option Nat :=
  (charIdx c l.reverse).map (fun i => l.length - 1 - i)

/-- Split at the first occurrence of `c` (Python `str.split(c, 1)` when
`c` occurs). Separator removed. -/
def splitFirst (c : Char) (l : List Char) : List Char × List Char :=
  match charIdx c l with
  | none => (l, [])
  | some i => (l.take i, l.drop (i + 1))

/-- Python `str.split(sep)` for a one-character separator. -/
def splitAllOn (c : Char) : List Char → List (List Char)
  | [] => [[]]
  | d :: ds =>
    let rest := splitAllOn c ds
    if d = c then [] :: rest
    else match rest with
      | [] => [[d]]
      | r :: rs => (d :: r) :: rs

/-- Python `str.splitlines`: split on line boundaries, `\r\n` counting as
one boundary; no trailing empty line for a trailing terminator.
Terminator set restricted to the Latin-1 range of Python's definition. -/
def lineTerm (c : Char) : Bool :=
  c.toNat = 10 ∨ c.toNat = 11 ∨ c.toNat = 12 ∨ c.toNat = 13 ∨
    (28 ≤ c.toNat ∧ c.toNat ≤ 30) ∨ c.toNat = 133 ∨
    c.toNat = 0x2028 ∨ c.toNat = 0x2029

def splitlinesAux : List Char → List Char → List (List Char)
  | [], acc => if acc = [] then [] else [acc.reverse]
  | '\r' :: '\n' :: rest, acc => acc.reverse :: splitlinesAux rest []
  | c :: rest, acc =>
    if lineTerm c then acc.reverse :: splitlinesAux rest []
    else splitlinesAux rest (c :: acc)

def splitlines (s : String) : List String :=
  (splitlinesAux s.data []).map fun l => ⟨l⟩

/-- Python substring containment (`needle in hay`). -/
def containsSubstr (hay needle : List Char) : Bool :=
  match hay with
  | [] => needle = []
  | _ :: tl => needle.isPrefixOf hay || containsSubstr tl needle

/-- Python `str.isdigit` restricted to ASCII digits. -/
def isDigitStr (l : List Char) : Bool :=
  l ≠ [] && l.all Char.isDigit

/-- Numeric value of an ASCII digit string (Python `int`). -/
def natOfDigits (l : List Char) : Nat :=
  l.foldl (fun acc c => acc * 10 + (c.toNat - 48)) 0

def lowerStr (l : List Char) : List Char := l.map Char.toLower

/-- Python `str.startswith` (String version that reduces in the kernel). -/
def startswith (s pre : String) : Bool := pre.data.isPrefixOf s.data

/-- First two characters equal the given pair (Python `s[:2] == "xy"`). -/
def firstTwoAre (l : List Char) (a b : Char) : Bool :=
  match l with
  | x :: y :: _ => x = a ∧ y = b
  | _ => false

end Py

namespace Urllib

/-! Embedding of CPython 3.11 `urllib.parse` (the parts the repository
uses): `urlsplit` / `urlparse` / `urlunsplit` / `urlunparse` and
`quote` / `unquote`.  Parsing may raise `ValueError` (bracketed-host
validation); this is modelled with `Except Unit`. `_checknetloc`, which
can only raise for certain non-ASCII netlocs via NFKC normalization, is
modelled as always passing. -/

def schemeCharP (c : Char) : Bool :=
  c.isAlpha || c.isDigit || c = '+' || c = '-' || c = '.'

def usesNetloc : List String :=
  ["", "ftp", "http", "gopher", "nntp", "telnet", "imap", "wais", "file",
   "mms", "https", "shttp", "snews", "prospero", "rtsp", "rtsps", "rtspu",
   "rsync", "svn", "svn+ssh", "sftp", "nfs", "git", "git+ssh", "ws", "wss"]

def usesParams : List String :=
  ["", "ftp", "hdl", "prospero", "http", "imap", "https", "shttp", "rtsp",
   "rtsps", "rtspu", "sip", "sips", "mms", "sftp", "tel"]

structure SplitResult where
  scheme : String
  netloc : String
  path : String
  query : String
  fragment : String
deriving DecidableEq, Repr

structure ParseResult where
  scheme : String
  netloc : String
  path : String
  params : String
  query : String
  fragment : String
deriving DecidableEq, Repr

/-- `_splitnetloc(url, 2)`: netloc runs until the first of `/?#`. -/
def splitnetloc (l : List Char) : List Char × List Char :=
  (l.takeWhile (fun c => ¬ (c = '/' ∨ c = '?' ∨ c = '#')),
   l.dropWhile (fun c => ¬ (c = '/' ∨ c = '?' ∨ c = '#')))

def hexDigitP (c : Char) : Bool :=
  c.isDigit || ('a' ≤ c ∧ c ≤ 'f') || ('A' ≤ c ∧ c ≤ 'F')

/-- `ipaddress` IPv4 octet: 1-3 ASCII digits, no leading zero, ≤ 255. -/
def ipv4OctetOK (l : List Char) : Bool :=
  l ≠ [] && l.length ≤ 3 && l.all Char.isDigit &&
    (match l with | '0' :: _ :: _ => false | _ => true) &&
    Py.natOfDigits l ≤ 255

def isIPv4 (l : List Char) : Bool :=
  match Py.splitAllOn '.' l with
  | [a, b, c, d] => ipv4OctetOK a && ipv4OctetOK b && ipv4OctetOK c && ipv4OctetOK d
  | _ => false

def hextetOK (l : List Char) : Bool :=
  l ≠ [] && l.length ≤ 4 && l.all hexDigitP

/-- `ipaddress` IPv6 textual validation (`_ip_int_from_string` acceptance),
without scope id. -/
def isIPv6Core (s : List Char) : Bool :=
  let parts0 := Py.splitAllOn ':' s
  if parts0.length < 3 then false
  else
    let lastPart := parts0.getLastD []
    let ipv4Tail := lastPart.contains '.'
    if ipv4Tail ∧ ¬ isIPv4 lastPart then false
    else
      let parts := if ipv4Tail then parts0.dropLast ++ [['0'], ['0']] else parts0
      let n := parts.length
      if n > 9 then false
      else
        let empties := (List.range n).filter
          (fun i => 1 ≤ i ∧ i + 1 < n ∧ parts.getD i ['x'] = [])
        match empties with
        | [] =>
          n = 8 && parts.all hextetOK
        | [i] =>
          let headEmpty := parts.getD 0 ['x'] = []
          let lastEmpty := parts.getD (n - 1) ['x'] = []
          let hi := if headEmpty then i - 1 else i
          let lo := if lastEmpty then n - i - 2 else n - i - 1
          (¬ headEmpty ∨ hi = 0) && (¬ lastEmpty ∨ lo = 0) &&
          (if headEmpty then i = 1 else true) &&
          (if lastEmpty then n - i - 2 = 0 else true) &&
          hi + lo + 1 ≤ 8 &&
          ((parts.take hi).all hextetOK) &&
          ((parts.drop (n - lo)).all hextetOK)
        | _ => false

/-- `ipaddress.IPv6Address` with optional nonempty `%scope`. -/
def isIPv6 (s : List Char) : Bool :=
  match Py.charIdx '%' s with
  | none => isIPv6Core s
  | some i =>
    let addr := s.take i
    let scope := s.drop (i + 1)
    scope ≠ [] && ¬ scope.contains '%' && isIPv6Core addr

/-- `\Av[a-fA-F0-9]+\..+\Z` (IPvFuture). -/
def isIPvFuture (l : List Char) : Bool :=
  match l with
  | 'v' :: rest =>
    let hexs := rest.takeWhile hexDigitP
    let rem := rest.dropWhile hexDigitP
    hexs ≠ [] &&
      (match rem with
       | '.' :: tail => tail ≠ []
       | _ => false)
  | _ => false

/-- `_check_bracketed_host`: ok for IPvFuture or a textual IPv6 address;
`ValueError` otherwise (including IPv4 in brackets). -/
def checkBracketedHost (host : List Char) : Except Unit Unit :=
  if isIPvFuture host then .ok ()
  else if host.head? = some 'v' then .error ()
  else if isIPv6 host then .ok ()
  else .error ()

/-- Substring of `netloc` between the first `[` and the following `]`
(`netloc.partition('[')[2].partition(']')[0]`). -/
def bracketedHostOf (netloc : List Char) : List Char :=
  ((netloc.dropWhile (· ≠ '[')).drop 1).takeWhile (· ≠ ']')

/-- CPython 3.11 `urllib.parse.urlsplit` with default scheme `''` and
fragments allowed.  `ValueError` is modelled as `Except.error`. -/
def urlsplitE (url : String) : Except Unit SplitResult :=
  let l := Py.lstripWhile Py.c0OrSpace url.data
  let l := l.filter (fun c => ¬ (c = '\t' ∨ c = '\r' ∨ c = '\n'))
  let (scheme, rest) :=
    match Py.charIdx ':' l with
    | some i =>
      if 0 < i ∧ (l.headD ' ').isAlpha ∧ (l.take i).all schemeCharP then
        (Py.lowerStr (l.take i), l.drop (i + 1))
      else ([], l)
    | none => ([], l)
  if Py.firstTwoAre rest '/' '/' then
    let (netloc, rest2) := splitnetloc (rest.drop 2)
    if (netloc.contains '[' ∧ ¬ netloc.contains ']') ∨
       (netloc.contains ']' ∧ ¬ netloc.contains '[') then
      .error ()
    else
      let hostCheck : Except Unit Unit :=
        if netloc.contains '[' ∧ netloc.contains ']' then
          checkBracketedHost (bracketedHostOf netloc)
        else .ok ()
      match hostCheck with
      | .error _ => .error ()
      | .ok _ =>
        let (path1, fragment) :=
          if rest2.contains '#' then Py.splitFirst '#' rest2 else (rest2, [])
        let (path2, query) :=
          if path1.contains '?' then Py.splitFirst '?' path1 else (path1, [])
        .ok ⟨⟨scheme⟩, ⟨netloc⟩, ⟨path2⟩, ⟨query⟩, ⟨fragment⟩⟩
  else
    let (path1, fragment) :=
      if rest.contains '#' then Py.splitFirst '#' rest else (rest, [])
    let (path2, query) :=
      if path1.contains '?' then Py.splitFirst '?' path1 else (path1, [])
    .ok ⟨⟨scheme⟩, "", ⟨path2⟩, ⟨query⟩, ⟨fragment⟩⟩

/-- `_splitparams`. -/
def splitparams (l : List Char) : List Char × List Char :=
  if l.contains '/' then
    match Py.charIdxFrom ';' l ((Py.charRIdx '/' l).getD 0) with
    | none => (l, [])
    | some i => (l.take i, l.drop (i + 1))
  else
    match Py.charIdx ';' l with
    | none => (l, [])
    | some i => (l.take i, l.drop (i + 1))

/-- CPython 3.11 `urllib.parse.urlparse`. -/
def urlparseE (url : String) : Except Unit ParseResult :=
  match urlsplitE url with
  | .error e => .error e
  | .ok r =>
    if r.scheme ∈ usesParams ∧ r.path.data.contains ';' then
      let (p, params) := splitparams r.path.data
      .ok ⟨r.scheme, r.netloc, ⟨p⟩, ⟨params⟩, r.query, r.fragment⟩
    else
      .ok ⟨r.scheme, r.netloc, r.path, "", r.query, r.fragment⟩

/-- CPython 3.11 `urllib.parse.urlunsplit`. -/
def urlunsplit (scheme netloc path query fragment : String) : String :=
  let url := path
  let url :=
    if netloc ≠ "" ∨ (scheme ≠ "" ∧ scheme ∈ usesNetloc ∧ ¬ Py.firstTwoAre url.data '/' '/') then
      let url := if url ≠ "" ∧ url.data.headD '/' ≠ '/' then "/" ++ url else url
      "//" ++ netloc ++ url
    else url
  let url := if scheme ≠ "" then scheme ++ ":" ++ url else url
  let url := if query ≠ "" then url ++ "?" ++ query else url
  if fragment ≠ "" then url ++ "#" ++ fragment else url

/-- CPython 3.11 `urllib.parse.urlunparse`; `ParseResult.geturl`. -/
def urlunparse (r : ParseResult) : String :=
  let url := if r.params ≠ "" then r.path ++ ";" ++ r.params else r.path
  urlunsplit r.scheme r.netloc url r.query r.fragment

end Urllib

namespace Urllib

/-! `quote` / `unquote` (CPython 3.11), needed by `urllib.robotparser`. -/

/-- UTF-8 encoding of a code point. -/
def utf8EncodeNat (n : Nat) : List Nat :=
  if n < 0x80 then [n]
  else if n < 0x800 then [0xC0 + n / 64, 0x80 + n % 64]
  else if n < 0x10000 then [0xE0 + n / 4096, 0x80 + n / 64 % 64, 0x80 + n % 64]
  else [0xF0 + n / 262144, 0x80 + n / 4096 % 64, 0x80 + n / 64 % 64, 0x80 + n % 64]

def hexUpperDigit (n : Nat) : Char :=
  "0123456789ABCDEF".data.getD n '0'

def pctEncodeByte (b : Nat) : List Char :=
  ['%', hexUpperDigit (b / 16), hexUpperDigit (b % 16)]

/-- `quote`'s always-safe characters. -/
def alwaysSafe (c : Char) : Bool :=
  c.isAlpha || c.isDigit || c = '_' || c = '.' || c = '-' || c = '~'

/-- `urllib.parse.quote` with the default `safe='/'`. -/
def quote (s : String) : String :=
  ⟨s.data.flatMap fun c =>
    if alwaysSafe c ∨ c = '/' then [c]
    else (utf8EncodeNat c.toNat).flatMap pctEncodeByte⟩

def hexVal? (c : Char) : Option Nat :=
  if c.isDigit then some (c.toNat - 48)
  else if 'a' ≤ c ∧ c ≤ 'f' then some (c.toNat - 87)
  else if 'A' ≤ c ∧ c ≤ 'F' then some (c.toNat - 55)
  else none

/-- One decoded UTF-8 replacement character. -/
def repl : Char := Char.ofNat 0xFFFD

def contByte (b : Nat) : Bool := 0x80 ≤ b ∧ b < 0xC0

/-- Permitted range of the first continuation byte given the lead byte
(rules out overlong encodings and surrogates). -/
def cont1OK (lead b : Nat) : Bool :=
  if lead = 0xE0 then 0xA0 ≤ b ∧ b < 0xC0
  else if lead = 0xED then 0x80 ≤ b ∧ b < 0xA0
  else if lead = 0xF0 then 0x90 ≤ b ∧ b < 0xC0
  else if lead = 0xF4 then 0x80 ≤ b ∧ b < 0x90
  else contByte b

/-- UTF-8 decoding with U+FFFD replacement for invalid sequences
(Python `bytes.decode('utf-8', errors='replace')`).  Written with an
explicit fuel argument (each step consumes at least one byte) so the
recursion is structural and reduces in the kernel. -/
def utf8DecodeAux : Nat → List Nat → List Char
  | 0, _ => []
  | _ + 1, [] => []
  | fuel + 1, b :: rest =>
    if b < 0x80 then Char.ofNat b :: utf8DecodeAux fuel rest
    else if b < 0xC2 then repl :: utf8DecodeAux fuel rest
    else if b < 0xE0 then
      match rest with
      | b2 :: rest2 =>
        if contByte b2 then Char.ofNat ((b - 0xC0) * 64 + (b2 - 0x80)) :: utf8DecodeAux fuel rest2
        else repl :: utf8DecodeAux fuel (b2 :: rest2)
      | [] => [repl]
    else if b < 0xF0 then
      match rest with
      | b2 :: b3 :: rest3 =>
        if cont1OK b b2 then
          if contByte b3 then
            Char.ofNat ((b - 0xE0) * 4096 + (b2 - 0x80) * 64 + (b3 - 0x80)) :: utf8DecodeAux fuel rest3
          else repl :: utf8DecodeAux fuel (b3 :: rest3)
        else repl :: utf8DecodeAux fuel (b2 :: b3 :: rest3)
      | [b2] => if cont1OK b b2 then [repl] else [repl, repl]
      | [] => [repl]
    else if b < 0xF5 then
      match rest with
      | b2 :: b3 :: b4 :: rest4 =>
        if cont1OK b b2 then
          if contByte b3 then
            if contByte b4 then
              Char.ofNat ((b - 0xF0) * 262144 + (b2 - 0x80) * 4096 +
                (b3 - 0x80) * 64 + (b4 - 0x80)) :: utf8DecodeAux fuel rest4
            else repl :: utf8DecodeAux fuel (b4 :: rest4)
          else repl :: utf8DecodeAux fuel (b3 :: b4 :: rest4)
        else repl :: utf8DecodeAux fuel (b2 :: b3 :: b4 :: rest4)
      | b2 :: b3 :: [] =>
        if cont1OK b b2 then (if contByte b3 then [repl] else [repl, repl])
        else repl :: utf8DecodeAux fuel (b2 :: [b3])
      | [b2] => if cont1OK b b2 then [repl] else [repl, repl]
      | [] => [repl]
    else repl :: utf8DecodeAux fuel rest

def utf8Decode (bs : List Nat) : List Char := utf8DecodeAux bs.length bs

/-- Tokenisation step of `unquote`: a `%XX` escape becomes a byte,
anything else stays a character. -/
inductive UQTok where
  | ch (c : Char)
  | byte (b : Nat)
deriving DecidableEq, Repr

def uqTokens : List Char → List UQTok
  | '%' :: a :: b :: rest =>
    match hexVal? a, hexVal? b with
    | some ha, some hb => .byte (16 * ha + hb) :: uqTokens rest
    | _, _ => .ch '%' :: uqTokens (a :: b :: rest)
  | c :: rest => .ch c :: uqTokens rest
  | [] => []

/-- Emit characters: maximal runs of escape bytes are UTF-8 decoded. -/
def uqEmit : List UQTok → List Nat → List Char
  | [], acc => utf8Decode acc.reverse
  | .byte b :: rest, acc => uqEmit rest (b :: acc)
  | .ch c :: rest, acc => utf8Decode acc.reverse ++ c :: uqEmit rest []

/-- `urllib.parse.unquote`. -/
def unquote (s : String) : String :=
  ⟨uqEmit (uqTokens s.data) []⟩

end Urllib

namespace Master

/-- `normalize_url` from `master_node.py` (lines 165-177): parse, drop the
fragment, reserialize, default the scheme to `http://` when absent, strip
trailing slashes; on a parse exception return the input unchanged. -/
def normalize_url (url : String) : String :=
  match Urllib.urlparseE url with
  | .error _ => url
  | .ok parsed =>
    let normalized := Urllib.urlunparse { parsed with fragment := "" }
    let normalized := if parsed.scheme = "" then "http://" ++ normalized else normalized
    ⟨Py.rstripWhile (fun c => c = '/') normalized.data⟩

end Master

namespace User

/-- `normalize_url` from `user.py` (lines 43-60): strip surrounding quote
characters, prepend `http://` unless the string already starts with
`http://` or `https://`, parse, drop the fragment, reserialize, strip
trailing slashes.  On a parse exception the function returns the `url`
variable as rebound at that point (quotes stripped, scheme prepended). -/
def normalize_url (url : String) : String :=
  let url1 : String :=
    ⟨Py.rstripWhile (fun c => c = '"' ∨ c = '\'')
      (Py.lstripWhile (fun c => c = '"' ∨ c = '\'') url.data)⟩
  let url2 :=
    if ¬ Py.startswith url1 "http://" ∧ ¬ Py.startswith url1 "https://" then "http://" ++ url1 else url1
  match Urllib.urlparseE url2 with
  | .error _ => url2
  | .ok parsed =>
    let normalized := Urllib.urlunparse { parsed with fragment := "" }
    ⟨Py.rstripWhile (fun c => c = '/') normalized.data⟩

end User

namespace Robots

/-! Embedding of CPython 3.11 `urllib.robotparser.RobotFileParser` (the
parts `crawler_node.py` uses: `parse`, `can_fetch`, `crawl_delay`,
`allow_all`).  `parse` and `can_fetch` call `urlparse`, which can raise;
this is modelled with `Except Unit`.  `last_checked` is `0` until
`modified()` runs (`parse` calls it), matching Python's falsiness check. -/

structure RuleLine where
  path : String
  allowance : Bool
deriving DecidableEq, Repr

/-- `RuleLine.__init__`: an empty disallow means allow-all; the path is
reserialized through `urlparse`/`urlunparse` and then percent-quoted. -/
def RuleLine.mkE (path : String) (allowance : Bool) : Except Unit RuleLine :=
  let allowance := if path = "" ∧ allowance = false then true else allowance
  match Urllib.urlparseE path with
  | .error _ => .error ()
  | .ok pr => .ok ⟨Urllib.quote (Urllib.urlunparse pr), allowance⟩

def RuleLine.appliesTo (rl : RuleLine) (filename : String) : Bool :=
  rl.path = "*" ∨ Py.startswith filename rl.path

structure Entry where
  useragents : List String
  rulelines : List RuleLine
  delay : Option Int
  req_rate : Option (Int × Int)
deriving DecidableEq, Repr

def Entry.empty : Entry := ⟨[], [], none, none⟩

/-- `Entry.applies_to`: the checked agent is the token before `/`,
lowercased; a `*` user-agent matches everything, otherwise substring
containment of the lowercased agent. -/
def Entry.appliesTo (e : Entry) (useragent : String) : Bool :=
  let ua := Py.lowerStr ((Py.splitAllOn '/' useragent.data).headD [])
  e.useragents.any fun agent =>
    agent = "*" ∨ Py.containsSubstr ua (Py.lowerStr agent.data)

/-- `Entry.allowance`: first applicable rule line wins; default allow. -/
def Entry.allowance (e : Entry) (filename : String) : Bool :=
  match e.rulelines.find? (fun rl => rl.appliesTo filename) with
  | some rl => rl.allowance
  | none => true

structure RFP where
  entries : List Entry
  default_entry : Option Entry
  disallow_all : Bool
  allow_all : Bool
  last_checked : Int
  url : String
  sitemaps : List String
deriving DecidableEq, Repr

/-- `RobotFileParser._add_entry`: entries naming `*` become the (first)
default entry, others are appended. -/
def addEntry (p : RFP) (e : Entry) : RFP :=
  if e.useragents.contains "*" then
    match p.default_entry with
    | none => { p with default_entry := some e }
    | some _ => p
  else { p with entries := p.entries ++ [e] }

/-- One line of `RobotFileParser.parse`'s state machine.
State 0 = start, 1 = saw user-agent, 2 = saw allow/disallow. -/
def parseLineE (acc : RFP × Entry × Nat) (line : String) : Except Unit (RFP × Entry × Nat) :=
  let (p, entry, state) := acc
  let (p, entry, state) :=
    if line = "" then
      if state = 1 then (p, Entry.empty, 0)
      else if state = 2 then (addEntry p entry, Entry.empty, 0)
      else (p, entry, state)
    else (p, entry, state)
  let lchars :=
    match Py.charIdx '#' line.data with
    | some i => line.data.take i
    | none => line.data
  let lchars := Py.pyStrip lchars
  if lchars = [] then .ok (p, entry, state)
  else
    match Py.charIdx ':' lchars with
    | none => .ok (p, entry, state)
    | some i =>
      let key : String := ⟨Py.lowerStr (Py.pyStrip (lchars.take i))⟩
      let value : String := Urllib.unquote ⟨Py.pyStrip (lchars.drop (i + 1))⟩
      if key = "user-agent" then
        let (p, entry) := if state = 2 then (addEntry p entry, Entry.empty) else (p, entry)
        .ok (p, { entry with useragents := entry.useragents ++ [value] }, 1)
      else if key = "disallow" then
        if state ≠ 0 then
          match RuleLine.mkE value false with
          | .error e => .error e
          | .ok rl => .ok (p, { entry with rulelines := entry.rulelines ++ [rl] }, 2)
        else .ok (p, entry, state)
      else if key = "allow" then
        if state ≠ 0 then
          match RuleLine.mkE value true with
          | .error e => .error e
          | .ok rl => .ok (p, { entry with rulelines := entry.rulelines ++ [rl] }, 2)
        else .ok (p, entry, state)
      else if key = "crawl-delay" then
        if state ≠ 0 then
          let entry :=
            if Py.isDigitStr (Py.pyStrip value.data) then
              { entry with delay := some (Py.natOfDigits (Py.pyStrip value.data) : Int) }
            else entry
          .ok (p, entry, 2)
        else .ok (p, entry, state)
      else if key = "request-rate" then
        if state ≠ 0 then
          let numbers := Py.splitAllOn '/' value.data
          let entry :=
            match numbers with
            | [a, b] =>
              if Py.isDigitStr (Py.pyStrip a) ∧ Py.isDigitStr (Py.pyStrip b) then
                { entry with req_rate := some ((Py.natOfDigits a : Int), (Py.natOfDigits b : Int)) }
              else entry
            | _ => entry
          .ok (p, entry, 2)
        else .ok (p, entry, state)
      else if key = "sitemap" then
        .ok ({ p with sitemaps := p.sitemaps ++ [value] }, entry, state)
      else .ok (p, entry, state)

/-- `RobotFileParser.parse` on a freshly constructed parser whose
`set_url` was given `robotsUrl`; `modified()` stamps `last_checked`. -/
def parseE (robotsUrl : String) (now : Int) (lines : List String) : Except Unit RFP := do
  let init : RFP :=
    { entries := [], default_entry := none, disallow_all := false, allow_all := false,
      last_checked := now, url := robotsUrl, sitemaps := [] }
  let (p, entry, state) ← lines.foldlM (fun acc l => parseLineE acc l) (init, Entry.empty, 0)
  .ok (if state = 2 then addEntry p entry else p)

/-- `RobotFileParser.can_fetch`. -/
def RFP.canFetchE (p : RFP) (useragent url : String) : Except Unit Bool :=
  if p.disallow_all then .ok false
  else if p.allow_all then .ok true
  else if p.last_checked = 0 then .ok false
  else
    match Urllib.urlparseE (Urllib.unquote url) with
    | .error e => .error e
    | .ok parsed =>
      let u := Urllib.urlunparse ⟨"", "", parsed.path, parsed.params, parsed.query, parsed.fragment⟩
      let u := Urllib.quote u
      let u := if u = "" then "/" else u
      match p.entries.find? (fun e => e.appliesTo useragent) with
      | some e => .ok (e.allowance u)
      | none =>
        match p.default_entry with
        | some e => .ok (e.allowance u)
        | none => .ok true

/-- `RobotFileParser.crawl_delay`. -/
def RFP.crawlDelay (p : RFP) (useragent : String) : Option Int :=
  if p.last_checked = 0 then none
  else
    match p.entries.find? (fun e => e.appliesTo useragent) with
    | some e => e.delay
    | none =>
      match p.default_entry with
      | some e => e.delay
      | none => none

/-- The parser built by `get_robots_parser`'s failure branches:
`RobotFileParser()` with `allow_all = True` (its `set_url` was only ever
called with the default empty url, `last_checked` stays 0). -/
def allowAllRFP : RFP :=
  { entries := [], default_entry := none, disallow_all := false, allow_all := true,
    last_checked := 0, url := "", sitemaps := [] }

end Robots

/-- Message bodies are JSON objects; only the value shapes the repository
uses are modelled. -/
inductive JValue where
  | jstr (s : String)
  | jint (n : Int)
  | jbool (b : Bool)
  | jnull
deriving DecidableEq, Repr

abbrev JBody := List (String × JValue)

/-- Python dict lookup built by `json.loads` (later duplicate keys win),
i.e. `body.get(k)`. -/
def jGet (body : JBody) (k : String) : Option JValue :=
  (body.reverse.find? (fun p => p.1 = k)).map (fun p => p.2)

/-- Python truthiness of a `.get` result (`if not url`). -/
def jTruthy : Option JValue → Bool
  | none => false
  | some (.jstr s) => s ≠ ""
  | some (.jint n) => n ≠ 0
  | some (.jbool b) => b
  | some .jnull => false

namespace CrawlerM

/-! Embedding of `crawler_node.py`.  The `Crawler` object's mutable
fields become `CrawlerState`; HTTP and S3 are oracle functions in `Env`
(`requests`' internal retry/backoff and timeouts are inside the
`fetchPage`/`fetchRobots` oracles — only the final outcome is visible to
this code); exceptions that propagate out of a method are modelled as
`Except.error` carrying the crawler state at the raise point, because
Python's in-place mutations survive the exception. -/

structure CrawlerState where
  delay : Int
  crawled_count : Nat
  failed_count : Nat
  uploaded_count : Nat
  robots_cache : List (String × Robots.RFP × Int)
deriving DecidableEq, Repr

/-- A fresh `Crawler(delay=CRAWL_DELAY)` (CRAWL_DELAY = 1). -/
def initCrawler : CrawlerState :=
  { delay := 1, crawled_count := 0, failed_count := 0, uploaded_count := 0, robots_cache := [] }

structure Env where
  now : Int
  /-- `session.get(base_url + "/robots.txt", timeout=5)` keyed by the base
  url: `none` models a raised request exception, `some (status, text)` a
  response. -/
  fetchRobots : String → Option (Nat × String)
  /-- `session.get(url, timeout=10)` + `raise_for_status()` for page
  fetches: `none` models any `RequestException` (timeout, DNS failure,
  retries exhausted, non-2xx status), `some text` a successful response. -/
  fetchPage : String → Option String
  /-- Outcome of the retried `s3.put_object` for a given key. -/
  uploadOk : String → Bool
  /-- `hashlib.md5(url.encode()).hexdigest()`. -/
  md5hex : String → String
  /-- `BeautifulSoup(html).find_all('a', href=True)`: the href values of
  the document's anchors, in document order. -/
  anchors : String → List String

/-- `self.robots_cache` lookup (`base_url in self.robots_cache`). -/
def cacheLookup (cache : List (String × Robots.RFP × Int)) (base : String) :
    Option (Robots.RFP × Int) :=
  (cache.find? (fun e => e.1 = base)).map (fun e => e.2)

/-- Python dict assignment on the robots cache. -/
def cacheSet (cache : List (String × Robots.RFP × Int)) (base : String)
    (v : Robots.RFP × Int) : List (String × Robots.RFP × Int) :=
  match cache with
  | [] => [(base, v)]
  | (k, w) :: rest => if k = base then (base, v) :: rest else (k, w) :: cacheSet rest base v

/-- The fetch-and-parse part of `get_robots_parser` (its `try` block,
entered on a cache miss or an expired entry): a 200 response is parsed;
a non-200 response, a request exception, or any exception inside the
block (e.g. `urlparse` failing on a rule path) yields a fresh
`allow_all` parser; either parser is cached at `time.time()`. -/
def getRobotsFetch (c : CrawlerState) (base : String) (env : Env) :
    Robots.RFP × CrawlerState :=
  let robotsUrl := base ++ "/robots.txt"
  let p :=
    match env.fetchRobots base with
    | some (status, text) =>
      if status = 200 then
        match Robots.parseE robotsUrl env.now (Py.splitlines text) with
        | .ok p => p
        | .error _ => Robots.allowAllRFP
      else Robots.allowAllRFP
    | none => Robots.allowAllRFP
  (p, { c with robots_cache := cacheSet c.robots_cache base (p, env.now) })

/-- `Crawler.get_robots_parser` (lines 61-101).  The initial
`urlparse(url)` is outside the `try`, so its `ValueError` propagates. -/
def getRobotsParserE (c : CrawlerState) (url : String) (env : Env) :
    Except CrawlerState (Robots.RFP × CrawlerState) :=
  match Urllib.urlparseE url with
  | .error _ => .error c
  | .ok parsed =>
    let base := parsed.scheme ++ "://" ++ parsed.netloc
    match cacheLookup c.robots_cache base with
    | some (p, ts) =>
      if env.now - ts < 3600 then .ok (p, c)
      else .ok (getRobotsFetch c base env)
    | none => .ok (getRobotsFetch c base env)

/-- `Crawler.can_fetch` (lines 103-119): on a robots disallow the
`failed_count` is incremented and `False` returned; on an allow, a
nonzero `crawl_delay("*")` larger than the current delay raises it. -/
def can_fetchE (c : CrawlerState) (url : String) (env : Env) :
    Except CrawlerState (Bool × CrawlerState) :=
  match getRobotsParserE c url env with
  | .error c1 => .error c1
  | .ok (p, c1) =>
    match p.canFetchE "*" url with
    | .error _ => .error c1
    | .ok cf =>
      if ¬ cf then .ok (false, { c1 with failed_count := c1.failed_count + 1 })
      else
        match p.crawlDelay "*" with
        | some d =>
          if d ≠ 0 ∧ d > c1.delay then .ok (true, { c1 with delay := d })
          else .ok (true, c1)
        | none => .ok (true, c1)

/-- `Crawler.fetch_page` (lines 121-136): robots check first (its
exceptions are not caught here); then the page fetch, whose
`RequestException`s increment `failed_count` and yield `None`. -/
def fetch_pageE (c : CrawlerState) (url : String) (env : Env) :
    Except CrawlerState (Option String × CrawlerState) :=
  match can_fetchE c url env with
  | .error c1 => .error c1
  | .ok (false, c1) => .ok (none, c1)
  | .ok (true, c1) =>
    match env.fetchPage url with
    | some text => .ok (some text, c1)
    | none => .ok (none, { c1 with failed_count := c1.failed_count + 1 })

/-- `Crawler.extract_links` (lines 149-163) applied to the href values of
the page's anchors: absolute `http...` hrefs are kept verbatim, hrefs
starting with `/` are concatenated onto the base url with its trailing
slashes stripped, everything else is dropped; the Python `set` is
modelled as a first-insertion-ordered duplicate-free list (the claims
only use its membership). -/
def linkStep (base_url : String) (links : List String) (href : String) : List String :=
  if Py.startswith href "http" then
    if href ∈ links then links else links ++ [href]
  else if Py.startswith href "/" then
    if (⟨Py.rstripWhile (fun ch => ch = '/') base_url.data⟩ : String) ++ href ∈ links then links
    else links ++ [(⟨Py.rstripWhile (fun ch => ch = '/') base_url.data⟩ : String) ++ href]
  else links

def extract_links (hrefs : List String) (base_url : String) : List String :=
  hrefs.foldl (linkStep base_url) []

/-- `Crawler.upload_to_s3` (lines 165-194): the key is the md5 hex digest
of the url plus `.html`; a successful (possibly internally retried) put
increments `uploaded_count`, an exhausted one increments `failed_count`
and returns `None`. -/
def upload_to_s3 (c : CrawlerState) (url : String) (env : Env) :
    CrawlerState × Option String :=
  let filename := env.md5hex url ++ ".html"
  if env.uploadOk filename then
    ({ c with uploaded_count := c.uploaded_count + 1 }, some filename)
  else
    ({ c with failed_count := c.failed_count + 1 }, none)

/-- Observable per-message effects of the worker loop body. -/
structure CrawlTrace where
  crawledUrl : Option String
  uploadedKey : Option String
  links : List String
deriving DecidableEq, Repr

def CrawlTrace.empty : CrawlTrace := ⟨none, none, []⟩

/-- The per-message body of `poll_and_crawl` (lines 253-282) after the
JSON body has been decoded, as a function of the body's `url` value:
falsy url → warn and skip; string url → fetch, and on html: count,
upload, extract links; any exception from processing (including a
non-string truthy url, on which `fetch_page` raises) → `failed_count`
increment.  The message is deleted in every path (`finally`). -/
def processUrlValue (c : CrawlerState) (uv : Option JValue) (env : Env) :
    CrawlerState × CrawlTrace :=
  if ¬ jTruthy uv then (c, CrawlTrace.empty)
  else
    match uv with
    | some (.jstr url) =>
      match fetch_pageE c url env with
      | .error cErr => ({ cErr with failed_count := cErr.failed_count + 1 }, CrawlTrace.empty)
      | .ok (none, c1) => (c1, CrawlTrace.empty)
      | .ok (some html, c1) =>
        if html = "" then (c1, CrawlTrace.empty)
        else
          let c2 := { c1 with crawled_count := c1.crawled_count + 1 }
          let (c3, key) := upload_to_s3 c2 url env
          let links := extract_links (env.anchors html) url
          (c3, ⟨some url, key, links⟩)
    | _ => ({ c with failed_count := c.failed_count + 1 }, CrawlTrace.empty)

/-- Processing of one received work-queue message body. -/
def processMessage (c : CrawlerState) (body : JBody) (env : Env) :
    CrawlerState × CrawlTrace :=
  processUrlValue c (jGet body "url") env

end CrawlerM

namespace MasterM

/-! Embedding of `master_node.py`'s `MasterNode`.  The instance fields
become `MasterState`; `sqs.send_message` becomes a success oracle keyed
by the url being sent (a `False` outcome models the raised
`ClientError`, which the code catches and logs). -/

/-- Per-url entry of `self.task_status`: `{"timestamp": ..., "status": ...}`. -/
structure TaskMeta where
  timestamp : Int
  status : String
deriving DecidableEq, Repr

/-- First-match association lookup (Python dict keys are unique). -/
def alookup (k : String) : List (String × TaskMeta) → Option TaskMeta
  | [] => none
  | (k', v) :: rest => if k' = k then some v else alookup k rest

/-- Python dict assignment: update in place, else append. -/
def aset (k : String) (v : TaskMeta) : List (String × TaskMeta) → List (String × TaskMeta)
  | [] => [(k, v)]
  | (k', v') :: rest => if k' = k then (k, v) :: rest else (k', v') :: aset k v rest

/-- Dict assignment for `self.crawler_status` (crawler id → last
heartbeat processing time). -/
def hset (k : String) (v : Int) : List (String × Int) → List (String × Int)
  | [] => [(k, v)]
  | (k', v') :: rest => if k' = k then (k, v) :: rest else (k', v') :: hset k v rest

def hlookup (k : String) : List (String × Int) → Option Int
  | [] => none
  | (k', v) :: rest => if k' = k then some v else hlookup k rest

structure MasterState where
  visited_urls : List String
  task_status : List (String × TaskMeta)
  crawler_status : List (String × Int)
  total_urls : Nat
  requeued : Nat
  active_crawlers : Nat
  failed_crawlers : Nat
deriving DecidableEq, Repr

/-- `MasterNode.__init__` state. -/
def initMaster : MasterState :=
  { visited_urls := [], task_status := [], crawler_status := [],
    total_urls := 0, requeued := 0, active_crawlers := 0, failed_crawlers := 0 }

structure MEnv where
  now : Int
  /-- Outcome of `sqs.send_message` for the body `{"url": url}`. -/
  sendOk : String → Bool

/-- `json.dumps({"url": url})`: the coordinator's enqueue/requeue message
body carries only the url. -/
def enqueueBody (url : String) : JBody := [("url", JValue.jstr url)]

/-- One iteration of the `add_urls_to_queue` loop: normalize; skip if
already visited; otherwise add to `visited_urls`, send, and only on a
successful send record the `queued` task and count it. -/
def addUrlsStep (env : MEnv) (acc : MasterState × List JBody) (rawUrl : String) :
    MasterState × List JBody :=
  let (s, sent) := acc
  let url := Master.normalize_url rawUrl
  if url ∈ s.visited_urls then (s, sent)
  else
    let s := { s with visited_urls := s.visited_urls ++ [url] }
    if env.sendOk url then
      ({ s with
          task_status := aset url ⟨env.now, "queued"⟩ s.task_status,
          total_urls := s.total_urls + 1 },
        sent ++ [enqueueBody url])
    else (s, sent)

/-- `MasterNode.add_urls_to_queue` (lines 32-47).  The function body has
no `return` statement, so its Python value is `None`: the `Option Nat`
component of the result (the type claim C4 needs) is always `none`.
Also returns the successfully sent message bodies. -/
def add_urls_to_queue (s : MasterState) (urls : List String) (env : MEnv) :
    MasterState × List JBody × Option Nat :=
  let (s', sent) := urls.foldl (addUrlsStep env) (s, [])
  (s', sent, none)

/-- Guard of the requeue branch of the timeout sweep. -/
def staleP (now : Int) (sendOk : String → Bool) (kv : String × TaskMeta) : Bool :=
  kv.2.status = "queued" ∧ now - kv.2.timestamp > 180 ∧ sendOk kv.1

/-- One iteration of the sweep loop in `check_task_timeouts`: a queued
item older than `TASK_TIMEOUT = 180` is resent; on a successful send its
timestamp is reset to now and the global `requeued` counter incremented
(a failed send leaves everything unchanged); the code writes only the
`"timestamp"` field, and `status` is `"queued"` by the guard. -/
def sweepStep (now : Int) (sendOk : String → Bool) (acc : MasterState × List JBody)
    (kv : String × TaskMeta) : MasterState × List JBody :=
  let (s, sent) := acc
  if kv.2.status = "queued" ∧ now - kv.2.timestamp > 180 then
    if sendOk kv.1 then
      ({ s with
          task_status := aset kv.1 ⟨now, kv.2.status⟩ s.task_status,
          requeued := s.requeued + 1 },
        sent ++ [enqueueBody kv.1])
    else (s, sent)
  else (s, sent)

/-- One pass of `MasterNode.check_task_timeouts` (lines 96-114), i.e. the
body of its loop after one 15s sleep, iterating over the snapshot
`list(self.task_status.items())`; `time.time()` is read as `now`. -/
def check_task_timeouts_once (s : MasterState) (now : Int) (sendOk : String → Bool) :
    MasterState × List JBody :=
  s.task_status.foldl (sweepStep now sendOk) (s, [])

/-- Draining of crawler heartbeat messages by `monitor_heartbeats`
(lines 49-71): each successfully parsed message upserts
`crawler_status[crawler_id] = time.time()`; messages are given as
(crawler id, processing time) pairs in processing order. -/
def monitor_heartbeats_batch (s : MasterState) (msgs : List (String × Int)) : MasterState :=
  msgs.foldl (fun s m => { s with crawler_status := hset m.1 m.2 s.crawler_status }) s

/-- One pass of `MasterNode.monitor_crawler_health` (lines 116-134): a
crawler whose last heartbeat is within 90s of now counts as active,
otherwise as failed; the aggregate counters are stored in the stats. -/
def monitor_crawler_health_once (s : MasterState) (now : Int) : MasterState :=
  let counts := s.crawler_status.foldl
    (fun (af : Nat × Nat) p => if now - p.2 ≤ 90 then (af.1 + 1, af.2) else (af.1, af.2 + 1))
    (0, 0)
  { s with active_crawlers := counts.1, failed_crawlers := counts.2 }

end MasterM

/-! Specification-side definitions (used to state claims against the
embedded code) and concrete fixtures for witnesses/counterexamples. -/

/-- Spec side: the last recorded heartbeat time of a worker in a sequence
of (worker id, processing time) heartbeat messages. -/
def lastHeartbeat (msgs : List (String × Int)) (cid : String) : Option Int :=
  match msgs with
  | [] => none
  | m :: rest =>
    match lastHeartbeat rest cid with
    | some t => some t
    | none => if m.1 = cid then some m.2 else none

/-- Spec side (claim C4): the number of newly accepted urls in a submitted
batch — those whose normalized form is not already in the dedup set,
counting each normalized form once. -/
def specNewlyAccepted (visited : List String) : List String → Nat
  | [] => 0
  | u :: rest =>
    let n := Master.normalize_url u
    if n ∈ visited then specNewlyAccepted visited rest
    else specNewlyAccepted (visited ++ [n]) rest + 1

/-- Spec side: the dedup set after a submitted batch. -/
def specVisitedAfter (visited : List String) : List String → List String
  | [] => visited
  | u :: rest =>
    let n := Master.normalize_url u
    if n ∈ visited then specVisitedAfter visited rest
    else specVisitedAfter (visited ++ [n]) rest

/-- Spec side (claim C2): `x` is a link the code extracts from an anchor
href `h` on the page at `b`. -/
def linkFrom (b h x : String) : Prop :=
  (Py.startswith h "http" ∧ x = h) ∨
  (¬ Py.startswith h "http" ∧ Py.startswith h "/" ∧
    x = (⟨Py.rstripWhile (fun ch => ch = '/') b.data⟩ : String) ++ h)

instance (b h x : String) : Decidable (linkFrom b h x) := by
  unfold linkFrom; infer_instance

/-- A send oracle on which every queue send succeeds. -/
def alwaysSend : String → Bool := fun _ => true

/-- Fixture: a worker environment whose robots.txt answer disallows
everything for every domain (status 200, `Disallow: /`). -/
def denyEnv : CrawlerM.Env :=
  { now := 1000,
    fetchRobots := fun _ => some (200, "User-agent: *\nDisallow: /"),
    fetchPage := fun _ => some "<html>page</html>",
    uploadOk := fun _ => true,
    md5hex := fun _ => "d41d8cd9",
    anchors := fun _ => [] }

/-- Fixture: the parser `denyEnv`'s robots.txt parses to. -/
def c3rules : Robots.RFP :=
  { entries := [], default_entry := some ⟨["*"], [⟨"/", false⟩], none, none⟩,
    disallow_all := false, allow_all := false, last_checked := 1000,
    url := "http://x.com/robots.txt", sitemaps := [] }

/-- Fixture: crawler state after the robots fetch for `http://x.com`
under `denyEnv`. -/
def c3mid : CrawlerM.CrawlerState :=
  { CrawlerM.initCrawler with robots_cache := [("http://x.com", c3rules, 1000)] }

/-- Fixture: a worker environment whose robots.txt fetch returns 404 for
every domain. -/
def robots404Env : CrawlerM.Env :=
  { denyEnv with fetchRobots := fun _ => some (404, "") }

/-- Fixture: master states for the C1 counterexample — the same url
enqueued at time 0 (requeued twice, at 200 and 400) versus enqueued at
time 210 (requeued once, at 400). -/
def c1sA : MasterM.MasterState :=
  { MasterM.initMaster with
      visited_urls := ["http://a.com"],
      task_status := [("http://a.com", ⟨0, "queued"⟩)] }

def c1sB : MasterM.MasterState :=
  { MasterM.initMaster with
      visited_urls := ["http://a.com"],
      task_status := [("http://a.com", ⟨210, "queued"⟩)] }

/-- Fixture bodies for C10: same url, different depth / depth_limit /
restrict_domain values. -/
def c10body1 : JBody :=
  [("url", .jstr "http://x.com/ok"), ("depth", .jint 0),
   ("depth_limit", .jint 1), ("restrict_domain", .jbool true)]

def c10body2 : JBody :=
  [("url", .jstr "http://x.com/ok"), ("depth", .jint 7),
   ("depth_limit", .jint 99), ("restrict_domain", .jbool false)]

/-- Fixture master environments: all sends succeed / all sends fail. -/
def okMEnv : MasterM.MEnv := { now := 100, sendOk := alwaysSend }

def failMEnv : MasterM.MEnv := { now := 100, sendOk := fun _ => false }

/-- Fixture: the crawler state cached by the C8 witness run (404 robots
fetch for `http://y.com` at time 1000 caches the allow-all parser). -/
def c8cached : CrawlerM.CrawlerState :=
  { CrawlerM.initCrawler with
      robots_cache := [("http://y.com", Robots.allowAllRFP, 1000)] }

/-- Fixture: a later environment (time 2000, within the TTL) whose robots
oracle would now DENY everything — used to show the cached allow-all
entry is consulted instead of re-fetching. -/
def c8env2 : CrawlerM.Env :=
  { robots404Env with
      now := 2000,
      fetchRobots := fun _ => some (200, "User-agent: *\nDisallow: /") }

deriving instance DecidableEq for Except

/-! Claim C5: totality and idempotence of the URL normalizer. -/

/-- C5 counterexample: `normalize_url` is not idempotent.  Normalizing
`http://a.com/?/` yields `http://a.com/?` (the query `/` survives, the
trailing-slash strip leaves a dangling `?`), and normalizing that again
drops the now-empty query and yields `http://a.com`.  The same input
refutes idempotence of `user.py`'s variant. -/
theorem C5_counterexample :
    Master.normalize_url (Master.normalize_url "http://a.com/?/") ≠
      Master.normalize_url "http://a.com/?/" ∧
    Master.normalize_url "http://a.com/?/" = "http://a.com/?" ∧
    Master.normalize_url "http://a.com/?" = "http://a.com" ∧
    User.normalize_url (User.normalize_url "http://a.com/?/") ≠
      User.normalize_url "http://a.com/?/" := by
  decide

/-- C5 (amended): the normalizer is total — a parse failure is caught and
the original string returned unchanged — but it is not idempotent for
all inputs (see the counterexample). -/
theorem C5_total (s : String) (h : Urllib.urlparseE s = .error ()) :
    Master.normalize_url s = s := by
  unfold Master.normalize_url
  rw [h]

/-- C5 witness: `http://[` actually takes the parse-failure path. -/
theorem C5_total_witness :
    Urllib.urlparseE "http://[" = .error () ∧
      Master.normalize_url "http://[" = "http://[" :=
  ⟨by decide, C5_total "http://[" (by decide)⟩

/-! Claim C10: worker behaviour depends only on the message's url field;
coordinator messages carry only the url. -/

/-- C10: processing of a work-queue message body is a function of the
body's `url` value alone (depth, depth_limit and restrict_domain never
reach the worker's logic), and the coordinator's enqueue/requeue bodies
carry only a `url` key. -/
theorem C10_url_only :
    (∀ (c : CrawlerM.CrawlerState) (env : CrawlerM.Env) (b1 b2 : JBody),
        jGet b1 "url" = jGet b2 "url" →
        CrawlerM.processMessage c b1 env = CrawlerM.processMessage c b2 env) ∧
    (∀ url : String, (MasterM.enqueueBody url).map Prod.fst = ["url"]) :=
  ⟨fun c env b1 b2 h => by unfold CrawlerM.processMessage; rw [h],
   fun _ => rfl⟩

/-- C10 witness: two concrete bodies with the same url but different
depth, depth_limit and restrict_domain are processed identically. -/
theorem C10_witness :
    CrawlerM.processMessage CrawlerM.initCrawler c10body1 denyEnv =
      CrawlerM.processMessage CrawlerM.initCrawler c10body2 denyEnv :=
  C10_url_only.1 CrawlerM.initCrawler denyEnv c10body1 c10body2 (by decide)

/-! Claim C3: robots disallow aborts the fetch — but the code counts it
in `failed_count`. -/

/-- C3 counterexample: with robots.txt `User-agent: * / Disallow: /`,
fetching `http://x.com/secret` from a fresh crawler aborts with no
content, but the worker's `failed_count` rises from 0 to 1 — the robots
rejection IS counted, contradicting the claim that the failed counter is
unchanged by the rejection. -/
theorem C3_counterexample :
    CrawlerM.fetch_pageE CrawlerM.initCrawler "http://x.com/secret" denyEnv =
      .ok (none, { c3mid with failed_count := c3mid.failed_count + 1 }) ∧
    c3mid.failed_count + 1 ≠ CrawlerM.initCrawler.failed_count := by
  exact ⟨by decide, by decide⟩

/-- C3 (amended): for every URL that the robots parser disallows for
user-agent `*`, `fetch_page` aborts returning no content, and the
worker's `failed_count` is incremented by exactly one (the code treats
the policy rejection as a failure). -/
theorem C3_disallow (c : CrawlerM.CrawlerState) (url : String) (env : CrawlerM.Env)
    (p : Robots.RFP) (c1 : CrawlerM.CrawlerState)
    (h1 : CrawlerM.getRobotsParserE c url env = .ok (p, c1))
    (h2 : p.canFetchE "*" url = .ok false) :
    CrawlerM.fetch_pageE c url env =
      .ok (none, { c1 with failed_count := c1.failed_count + 1 }) := by
  simp [CrawlerM.fetch_pageE, CrawlerM.can_fetchE, h1, h2]

/-- C3 witness: the counterexample scenario instantiates the theorem. -/
theorem C3_disallow_witness :
    CrawlerM.getRobotsParserE CrawlerM.initCrawler "http://x.com/secret" denyEnv =
      .ok (c3rules, c3mid) ∧
    Robots.RFP.canFetchE c3rules "*" "http://x.com/secret" = .ok false ∧
    CrawlerM.fetch_pageE CrawlerM.initCrawler "http://x.com/secret" denyEnv =
      .ok (none, { c3mid with failed_count := c3mid.failed_count + 1 }) :=
  ⟨by decide, by decide,
   C3_disallow CrawlerM.initCrawler "http://x.com/secret" denyEnv c3rules c3mid
     (by decide) (by decide)⟩

/-! Claim C2: link extraction. -/

/-- C2 counterexample: for a page at `http://example.com/a` with anchors
`/b` and `http://other.com/c`, the extracted links are NOT exactly
the set containing `http://example.com/b`: the cross-domain link is kept
(there is no restrict_domain logic in `extract_links`), and the relative
href is resolved by string concatenation to `http://example.com/a/b`,
not `http://example.com/b`. -/
theorem C2_counterexample :
    "http://other.com/c" ∈
        CrawlerM.extract_links ["/b", "http://other.com/c"] "http://example.com/a" ∧
    "http://example.com/b" ∉
        CrawlerM.extract_links ["/b", "http://other.com/c"] "http://example.com/a" ∧
    "http://example.com/a/b" ∈
        CrawlerM.extract_links ["/b", "http://other.com/c"] "http://example.com/a" := by
  decide

lemma linkStep_mem (b : String) (links : List String) (href x : String) :
    x ∈ CrawlerM.linkStep b links href ↔ x ∈ links ∨ linkFrom b href x := by
  unfold CrawlerM.linkStep linkFrom
  split_ifs with h1 h2 h3 h4 <;>
    simp_all [List.mem_append]

lemma foldl_linkStep_mem (b : String) :
    ∀ (hrefs : List String) (links : List String) (x : String),
      x ∈ List.foldl (CrawlerM.linkStep b) links hrefs ↔
        x ∈ links ∨ ∃ h ∈ hrefs, linkFrom b h x := by
  intro hrefs
  induction hrefs with
  | nil => intro links x; simp
  | cons h t ih =>
    intro links x
    simp only [List.foldl_cons, ih, linkStep_mem, List.exists_mem_cons_iff]
    tauto

lemma linkStep_nodup (b : String) (links : List String) (href : String)
    (h : links.Nodup) : (CrawlerM.linkStep b links href).Nodup := by
  unfold CrawlerM.linkStep
  split_ifs with h1 h2 h3 h4 <;>
    simp_all [List.nodup_append]

lemma foldl_linkStep_nodup (b : String) :
    ∀ (hrefs : List String) (links : List String),
      links.Nodup → (List.foldl (CrawlerM.linkStep b) links hrefs).Nodup := by
  intro hrefs
  induction hrefs with
  | nil => intro links h; simpa using h
  | cons h t ih => intro links hl; exact ih _ (linkStep_nodup b links h hl)

/-- C2 (amended): extraction from the anchors of a page at `base` yields
exactly: every href starting with `http` kept verbatim (cross-domain
links included — there is no restrict_domain filtering), and every other
href starting with `/` concatenated onto `base` with trailing slashes
stripped; all remaining hrefs (fragment-only links included) are
dropped, and the result is duplicate-free. -/
theorem C2_extract_links (hrefs : List String) (base x : String) :
    (x ∈ CrawlerM.extract_links hrefs base ↔ ∃ h ∈ hrefs, linkFrom base h x) ∧
    (CrawlerM.extract_links hrefs base).Nodup := by
  constructor
  · simpa using foldl_linkStep_mem base hrefs [] x
  · exact foldl_linkStep_nodup base hrefs [] List.nodup_nil

/-! Shared association-list lemmas about the master's dict embeddings. -/

lemma alookup_aset (k k' : String) (v : MasterM.TaskMeta) (l : List (String × MasterM.TaskMeta)) :
    MasterM.alookup k (MasterM.aset k' v l) = if k' = k then some v else MasterM.alookup k l := by
  induction l with
  | nil => simp [MasterM.aset, MasterM.alookup]
  | cons p rest ih =>
    by_cases h : p.1 = k'
    · simp [MasterM.aset, MasterM.alookup, h]
      split_ifs with h2 <;> simp [MasterM.alookup, h2]
    · simp only [MasterM.aset]
      rw [if_neg h]
      by_cases h2 : p.1 = k
      · have : ¬ k' = k := fun he => h (he ▸ h2)
        simp [MasterM.alookup, h2, this]
      · simp [MasterM.alookup, h2, ih]

lemma aset_length_le (k : String) (v : MasterM.TaskMeta) (l : List (String × MasterM.TaskMeta)) :
    (MasterM.aset k v l).length ≤ l.length + 1 := by
  induction l with
  | nil => simp [MasterM.aset]
  | cons p rest ih =>
    simp only [MasterM.aset]
    split_ifs <;> simp
    omega

lemma hlookup_hset (k k' : String) (v : Int) (l : List (String × Int)) :
    MasterM.hlookup k (MasterM.hset k' v l) = if k' = k then some v else MasterM.hlookup k l := by
  induction l with
  | nil => simp [MasterM.hset, MasterM.hlookup]
  | cons p rest ih =>
    by_cases h : p.1 = k'
    · simp [MasterM.hset, MasterM.hlookup, h]
      split_ifs with h2 <;> simp [MasterM.hlookup, h2]
    · simp only [MasterM.hset]
      rw [if_neg h]
      by_cases h2 : p.1 = k
      · have : ¬ k' = k := fun he => h (he ▸ h2)
        simp [MasterM.hlookup, h2, this]
      · simp [MasterM.hlookup, h2, ih]

/-! Claim C7: failed enqueue leaves the url dedup-blocked but untracked. -/

/-- C7: when the queue send for a newly accepted url fails, the url stays
in the dedup set, no `queued` task entry is created, `total_urls` is not
incremented and nothing is enqueued — and a later resubmission of the
same url is rejected outright by dedup. -/
theorem C7_send_failure (s : MasterM.MasterState) (u : String) (env env2 : MasterM.MEnv)
    (hsend : env.sendOk (Master.normalize_url u) = false)
    (hnew : Master.normalize_url u ∉ s.visited_urls)
    (hts : MasterM.alookup (Master.normalize_url u) s.task_status = none) :
    (MasterM.add_urls_to_queue s [u] env).1.visited_urls
        = s.visited_urls ++ [Master.normalize_url u] ∧
    MasterM.alookup (Master.normalize_url u)
        (MasterM.add_urls_to_queue s [u] env).1.task_status = none ∧
    (MasterM.add_urls_to_queue s [u] env).1.total_urls = s.total_urls ∧
    (MasterM.add_urls_to_queue s [u] env).2.1 = [] ∧
    MasterM.add_urls_to_queue (MasterM.add_urls_to_queue s [u] env).1 [u] env2
        = ((MasterM.add_urls_to_queue s [u] env).1, [], none) := by
  simp [MasterM.add_urls_to_queue, MasterM.addUrlsStep, hnew, hsend, hts, List.mem_append]

/-- C7 witness: concrete failing-send submission. -/
theorem C7_witness :
    (MasterM.add_urls_to_queue MasterM.initMaster ["http://a.com"] failMEnv).1.visited_urls
        = MasterM.initMaster.visited_urls ++ [Master.normalize_url "http://a.com"] ∧
    MasterM.alookup (Master.normalize_url "http://a.com")
        (MasterM.add_urls_to_queue MasterM.initMaster ["http://a.com"] failMEnv).1.task_status
        = none ∧
    (MasterM.add_urls_to_queue MasterM.initMaster ["http://a.com"] failMEnv).1.total_urls
        = MasterM.initMaster.total_urls ∧
    (MasterM.add_urls_to_queue MasterM.initMaster ["http://a.com"] failMEnv).2.1 = [] ∧
    MasterM.add_urls_to_queue
        (MasterM.add_urls_to_queue MasterM.initMaster ["http://a.com"] failMEnv).1
        ["http://a.com"] okMEnv
      = ((MasterM.add_urls_to_queue MasterM.initMaster ["http://a.com"] failMEnv).1, [], none) :=
  C7_send_failure MasterM.initMaster "http://a.com" failMEnv okMEnv
    (by decide) (by decide) (by decide)

/-! Claim C6: submitting the same raw url twice. -/

lemma visited_after_addUrls (s : MasterM.MasterState) (u : String) (env : MasterM.MEnv) :
    Master.normalize_url u ∈ (MasterM.add_urls_to_queue s [u] env).1.visited_urls := by
  by_cases h : Master.normalize_url u ∈ s.visited_urls
  · by_cases hs : env.sendOk (Master.normalize_url u) = true <;>
      simp [MasterM.add_urls_to_queue, MasterM.addUrlsStep, h]
  · by_cases hs : env.sendOk (Master.normalize_url u) = true <;>
      simp [MasterM.add_urls_to_queue, MasterM.addUrlsStep, h, hs]

lemma addUrls_dup (s : MasterM.MasterState) (u : String) (env : MasterM.MEnv)
    (h : Master.normalize_url u ∈ s.visited_urls) :
    MasterM.add_urls_to_queue s [u] env = (s, [], none) := by
  simp [MasterM.add_urls_to_queue, MasterM.addUrlsStep, h]

/-- C6: a second `submit([u])` with the same raw url (or any url with the
same normalized form, e.g. a differently cased scheme) is a complete
no-op: no state change and no message sent; the first submission sends
at most one message and creates at most one task entry. -/
theorem C6_dedup (s : MasterM.MasterState) (u1 u2 : String) (env1 env2 : MasterM.MEnv)
    (h : Master.normalize_url u1 = Master.normalize_url u2) :
    MasterM.add_urls_to_queue (MasterM.add_urls_to_queue s [u1] env1).1 [u2] env2
        = ((MasterM.add_urls_to_queue s [u1] env1).1, [], none) ∧
    (MasterM.add_urls_to_queue s [u1] env1).2.1.length ≤ 1 ∧
    (MasterM.add_urls_to_queue s [u1] env1).1.task_status.length
        ≤ s.task_status.length + 1 := by
  refine ⟨?_, ?_, ?_⟩
  · have hv : Master.normalize_url u2 ∈ (MasterM.add_urls_to_queue s [u1] env1).1.visited_urls := by
      rw [← h]; exact visited_after_addUrls s u1 env1
    exact addUrls_dup _ u2 env2 hv
  · by_cases hm : Master.normalize_url u1 ∈ s.visited_urls <;>
      by_cases hs : env1.sendOk (Master.normalize_url u1) = true <;>
      simp [MasterM.add_urls_to_queue, MasterM.addUrlsStep, hm, hs]
  · by_cases hm : Master.normalize_url u1 ∈ s.visited_urls <;>
      by_cases hs : env1.sendOk (Master.normalize_url u1) = true <;>
      simp [MasterM.add_urls_to_queue, MasterM.addUrlsStep, hm, hs, aset_length_le]

/-- C6 witness: the same url submitted with upper- and lower-cased scheme
normalizes identically, so the second submission is a no-op. -/
theorem C6_witness :
    MasterM.add_urls_to_queue
        (MasterM.add_urls_to_queue MasterM.initMaster ["HTTP://example.com"] okMEnv).1
        ["http://example.com"] okMEnv
      = ((MasterM.add_urls_to_queue MasterM.initMaster ["HTTP://example.com"] okMEnv).1, [], none) ∧
    (MasterM.add_urls_to_queue MasterM.initMaster ["HTTP://example.com"] okMEnv).2.1.length ≤ 1 ∧
    (MasterM.add_urls_to_queue MasterM.initMaster ["HTTP://example.com"] okMEnv).1.task_status.length
        ≤ MasterM.initMaster.task_status.length + 1 :=
  C6_dedup MasterM.initMaster "HTTP://example.com" "http://example.com" okMEnv okMEnv (by decide)

/-! Claim C4: the return value of the submit operation. -/

lemma addUrls_fold (env : MasterM.MEnv) (hok : ∀ u, env.sendOk u = true) :
    ∀ (urls : List String) (s : MasterM.MasterState) (sent : List JBody),
      (List.foldl (MasterM.addUrlsStep env) (s, sent) urls).1.total_urls
          = s.total_urls + specNewlyAccepted s.visited_urls urls ∧
      (List.foldl (MasterM.addUrlsStep env) (s, sent) urls).2.length
          = sent.length + specNewlyAccepted s.visited_urls urls ∧
      (List.foldl (MasterM.addUrlsStep env) (s, sent) urls).1.visited_urls
          = specVisitedAfter s.visited_urls urls := by
  intro urls
  induction urls with
  | nil => intro s sent; simp [specNewlyAccepted, specVisitedAfter]
  | cons u rest ih =>
    intro s sent
    by_cases h : Master.normalize_url u ∈ s.visited_urls
    · simpa [MasterM.addUrlsStep, h, specNewlyAccepted, specVisitedAfter] using ih s sent
    · have step :
          MasterM.addUrlsStep env (s, sent) u =
            ({ s with
                visited_urls := s.visited_urls ++ [Master.normalize_url u],
                task_status := MasterM.aset (Master.normalize_url u)
                  ⟨env.now, "queued"⟩ s.task_status,
                total_urls := s.total_urls + 1 },
              sent ++ [MasterM.enqueueBody (Master.normalize_url u)]) := by
        simp [MasterM.addUrlsStep, h, hok]
      obtain ⟨h1, h2, h3⟩ := ih
        { s with
            visited_urls := s.visited_urls ++ [Master.normalize_url u],
            task_status := MasterM.aset (Master.normalize_url u)
              ⟨env.now, "queued"⟩ s.task_status,
            total_urls := s.total_urls + 1 }
        (sent ++ [MasterM.enqueueBody (Master.normalize_url u)])
      refine ⟨?_, ?_, ?_⟩ <;>
        simp only [List.foldl_cons, step, h1, h2, h3, specNewlyAccepted, specVisitedAfter,
          if_neg h, List.length_append, List.length_cons, List.length_nil] <;>
        omega

/-- C4 counterexample: submitting one fresh url (all sends succeeding)
accepts exactly one url, yet `add_urls_to_queue` returns `None` — not
the count 1 the claim promises (the Python function has no `return`
statement). -/
theorem C4_counterexample :
    specNewlyAccepted MasterM.initMaster.visited_urls ["http://a.com"] = 1 ∧
    (MasterM.add_urls_to_queue MasterM.initMaster ["http://a.com"] okMEnv).2.2 = none ∧
    (MasterM.add_urls_to_queue MasterM.initMaster ["http://a.com"] okMEnv).2.2 ≠ some 1 := by
  exact ⟨by decide, by decide, by decide⟩

/-- C4 (amended): `add_urls_to_queue` returns no value (Python `None`).
When every send succeeds, the number of newly accepted urls — those
whose normalized form was not already in the dedup set — is what gets
added to `stats.total_urls` and is the number of messages enqueued;
duplicates are silently dropped: resubmitting an already-visited url is
a complete no-op, not an error. -/
theorem C4_submit (s : MasterM.MasterState) (urls : List String) (env : MasterM.MEnv)
    (hok : ∀ u, env.sendOk u = true) :
    (MasterM.add_urls_to_queue s urls env).2.2 = none ∧
    (MasterM.add_urls_to_queue s urls env).1.total_urls
        = s.total_urls + specNewlyAccepted s.visited_urls urls ∧
    (MasterM.add_urls_to_queue s urls env).2.1.length
        = specNewlyAccepted s.visited_urls urls ∧
    (∀ u, Master.normalize_url u ∈ s.visited_urls →
        MasterM.add_urls_to_queue s [u] env = (s, [], none)) := by
  obtain ⟨h1, h2, h3⟩ := addUrls_fold env hok urls s []
  exact ⟨rfl, by simpa [MasterM.add_urls_to_queue] using h1,
    by simpa [MasterM.add_urls_to_queue] using h2,
    fun u hu => addUrls_dup s u env hu⟩

/-- C4 witness: a batch with an internal duplicate and an already-visited
url accepts exactly the two fresh ones. -/
theorem C4_witness :
    (MasterM.add_urls_to_queue c1sA ["http://b.com", "HTTP://b.com", "http://a.com", "http://c.com"]
        okMEnv).2.2 = none ∧
    (MasterM.add_urls_to_queue c1sA ["http://b.com", "HTTP://b.com", "http://a.com", "http://c.com"]
        okMEnv).1.total_urls
      = c1sA.total_urls +
          specNewlyAccepted c1sA.visited_urls
            ["http://b.com", "HTTP://b.com", "http://a.com", "http://c.com"] ∧
    (MasterM.add_urls_to_queue c1sA ["http://b.com", "HTTP://b.com", "http://a.com", "http://c.com"]
        okMEnv).2.1.length
      = specNewlyAccepted c1sA.visited_urls
          ["http://b.com", "HTTP://b.com", "http://a.com", "http://c.com"] ∧
    (∀ u, Master.normalize_url u ∈ c1sA.visited_urls →
        MasterM.add_urls_to_queue c1sA [u] okMEnv = (c1sA, [], none)) :=
  C4_submit c1sA ["http://b.com", "HTTP://b.com", "http://a.com", "http://c.com"] okMEnv
    (fun _ => rfl)

/-! Claim C1: the timeout sweep. -/

lemma sweepStep_skip (now : Int) (sendOk : String → Bool) (s : MasterM.MasterState)
    (sent : List JBody) (kv : String × MasterM.TaskMeta)
    (h : ¬ (kv.2.status = "queued" ∧ now - kv.2.timestamp > 180 ∧ sendOk kv.1 = true)) :
    MasterM.sweepStep now sendOk (s, sent) kv = (s, sent) := by
  by_cases h1 : kv.2.status = "queued" ∧ now - kv.2.timestamp > 180
  · have h2 : ¬ sendOk kv.1 = true := fun hs => h ⟨h1.1, h1.2, hs⟩
    simp [MasterM.sweepStep, h1, h2]
  · simp [MasterM.sweepStep, h1]

lemma sweepStep_fire (now : Int) (sendOk : String → Bool) (s : MasterM.MasterState)
    (sent : List JBody) (kv : String × MasterM.TaskMeta)
    (h1 : kv.2.status = "queued" ∧ now - kv.2.timestamp > 180) (h2 : sendOk kv.1 = true) :
    MasterM.sweepStep now sendOk (s, sent) kv =
      ({ s with
          task_status := MasterM.aset kv.1 ⟨now, kv.2.status⟩ s.task_status,
          requeued := s.requeued + 1 },
        sent ++ [MasterM.enqueueBody kv.1]) := by
  simp [MasterM.sweepStep, h1, h2]

lemma staleP_iff (now : Int) (sendOk : String → Bool) (kv : String × MasterM.TaskMeta) :
    MasterM.staleP now sendOk kv = true ↔
      (kv.2.status = "queued" ∧ now - kv.2.timestamp > 180 ∧ sendOk kv.1 = true) := by
  simp [MasterM.staleP]

lemma sweep_requeued (now : Int) (sendOk : String → Bool) :
    ∀ (items : List (String × MasterM.TaskMeta)) (s : MasterM.MasterState) (sent : List JBody),
      (List.foldl (MasterM.sweepStep now sendOk) (s, sent) items).1.requeued
        = s.requeued + (items.filter (MasterM.staleP now sendOk)).length := by
  intro items
  induction items with
  | nil => intro s sent; simp
  | cons kv rest ih =>
    intro s sent
    by_cases hp : MasterM.staleP now sendOk kv = true
    · obtain ⟨g1, g2, g3⟩ := (staleP_iff now sendOk kv).mp hp
      simp only [List.foldl_cons, sweepStep_fire now sendOk s sent kv ⟨g1, g2⟩ g3, ih,
        List.filter_cons, hp]
      simp; omega
    · simp only [List.foldl_cons,
        sweepStep_skip now sendOk s sent kv (fun hc => hp ((staleP_iff now sendOk kv).mpr hc)),
        ih, List.filter_cons, hp]
      simp

lemma sweep_sent_mono (now : Int) (sendOk : String → Bool) :
    ∀ (items : List (String × MasterM.TaskMeta)) (s : MasterM.MasterState)
      (sent : List JBody) (e : JBody),
      e ∈ sent → e ∈ (List.foldl (MasterM.sweepStep now sendOk) (s, sent) items).2 := by
  intro items
  induction items with
  | nil => intro s sent e he; simpa using he
  | cons kv rest ih =>
    intro s sent e he
    by_cases hp : MasterM.staleP now sendOk kv = true
    · obtain ⟨g1, g2, g3⟩ := (staleP_iff now sendOk kv).mp hp
      rw [List.foldl_cons, sweepStep_fire now sendOk s sent kv ⟨g1, g2⟩ g3]
      exact ih _ _ e (List.mem_append_left _ he)
    · rw [List.foldl_cons,
        sweepStep_skip now sendOk s sent kv (fun hc => hp ((staleP_iff now sendOk kv).mpr hc))]
      exact ih _ _ e he

lemma sweep_sent_mem (now : Int) (sendOk : String → Bool) :
    ∀ (items : List (String × MasterM.TaskMeta)) (s : MasterM.MasterState)
      (sent : List JBody) (kv : String × MasterM.TaskMeta),
      kv ∈ items → MasterM.staleP now sendOk kv = true →
      MasterM.enqueueBody kv.1 ∈ (List.foldl (MasterM.sweepStep now sendOk) (s, sent) items).2 := by
  intro items
  induction items with
  | nil => intro s sent kv h; simp at h
  | cons kv0 rest ih =>
    intro s sent kv hmem hp
    rcases List.mem_cons.mp hmem with rfl | htail
    · obtain ⟨g1, g2, g3⟩ := (staleP_iff now sendOk kv).mp hp
      rw [List.foldl_cons, sweepStep_fire now sendOk s sent kv ⟨g1, g2⟩ g3]
      exact sweep_sent_mono now sendOk rest _ _ _ (List.mem_append_right _ (by simp))
    · by_cases hp0 : MasterM.staleP now sendOk kv0 = true
      · obtain ⟨g1, g2, g3⟩ := (staleP_iff now sendOk kv0).mp hp0
        rw [List.foldl_cons, sweepStep_fire now sendOk s sent kv0 ⟨g1, g2⟩ g3]
        exact ih _ _ kv htail hp
      · rw [List.foldl_cons,
          sweepStep_skip now sendOk s sent kv0 (fun hc => hp0 ((staleP_iff now sendOk kv0).mpr hc))]
        exact ih _ _ kv htail hp

lemma sweep_lookup_frame (now : Int) (sendOk : String → Bool) :
    ∀ (items : List (String × MasterM.TaskMeta)) (s : MasterM.MasterState)
      (sent : List JBody) (url : String),
      url ∉ items.map Prod.fst →
      MasterM.alookup url (List.foldl (MasterM.sweepStep now sendOk) (s, sent) items).1.task_status
        = MasterM.alookup url s.task_status := by
  intro items
  induction items with
  | nil => intro s sent url _; rfl
  | cons kv rest ih =>
    intro s sent url hnot
    have hne : kv.1 ≠ url := fun he => hnot (by simp [he])
    have htail : url ∉ rest.map Prod.fst := fun hm => hnot (by simp [hm])
    by_cases hp : MasterM.staleP now sendOk kv = true
    · obtain ⟨g1, g2, g3⟩ := (staleP_iff now sendOk kv).mp hp
      rw [List.foldl_cons, sweepStep_fire now sendOk s sent kv ⟨g1, g2⟩ g3,
        ih _ _ url htail]
      simp [alookup_aset, hne]
    · rw [List.foldl_cons,
        sweepStep_skip now sendOk s sent kv (fun hc => hp ((staleP_iff now sendOk kv).mpr hc))]
      exact ih _ _ url htail

lemma sweep_lookup_set (now : Int) (sendOk : String → Bool) :
    ∀ (items : List (String × MasterM.TaskMeta)) (s : MasterM.MasterState)
      (sent : List JBody) (url : String) (meta : MasterM.TaskMeta),
      (items.map Prod.fst).Nodup → (url, meta) ∈ items →
      MasterM.staleP now sendOk (url, meta) = true →
      MasterM.alookup url (List.foldl (MasterM.sweepStep now sendOk) (s, sent) items).1.task_status
        = some ⟨now, meta.status⟩ := by
  intro items
  induction items with
  | nil => intro s sent url meta _ h; simp at h
  | cons kv rest ih =>
    intro s sent url meta hnd hmem hp
    have hnd2 := hnd
    rw [List.map_cons, List.nodup_cons] at hnd2
    rcases List.mem_cons.mp hmem with heq | htail
    · obtain ⟨g1, g2, g3⟩ := (staleP_iff now sendOk (url, meta)).mp hp
      subst heq
      rw [List.foldl_cons, sweepStep_fire now sendOk s sent (url, meta) ⟨g1, g2⟩ g3,
        sweep_lookup_frame now sendOk rest _ _ url hnd2.1]
      simp [alookup_aset]
    · have hne : kv.1 ≠ url := by
        intro he
        exact hnd2.1 (he ▸ (List.mem_map.mpr ⟨(url, meta), htail, rfl⟩))
      by_cases hp0 : MasterM.staleP now sendOk kv = true
      · obtain ⟨g1, g2, g3⟩ := (staleP_iff now sendOk kv).mp hp0
        rw [List.foldl_cons, sweepStep_fire now sendOk s sent kv ⟨g1, g2⟩ g3]
        exact ih _ _ url meta hnd2.2 htail hp
      · rw [List.foldl_cons,
          sweepStep_skip now sendOk s sent kv (fun hc => hp0 ((staleP_iff now sendOk kv).mpr hc))]
        exact ih _ _ url meta hnd2.2 htail hp

/-- C1 counterexample: per-item state carries no attempt count at all.
The same url requeued TWICE (enqueued at 0, swept at 200 and again at
400) ends with per-item metadata identical to the url requeued ONCE
(enqueued at 210, swept at 400): both are exactly
`{timestamp := 400, status := "queued"}`.  Only the global `requeued`
counter (2 versus 1) distinguishes the histories, so no per-WorkItem
`attempt_count` exists, let alone strictly increases. -/
theorem C1_counterexample :
    (MasterM.check_task_timeouts_once
        (MasterM.check_task_timeouts_once c1sA 200 alwaysSend).1 400 alwaysSend).1.task_status
      = (MasterM.check_task_timeouts_once c1sB 400 alwaysSend).1.task_status ∧
    (MasterM.check_task_timeouts_once
        (MasterM.check_task_timeouts_once c1sA 200 alwaysSend).1 400 alwaysSend).1.requeued = 2 ∧
    (MasterM.check_task_timeouts_once c1sB 400 alwaysSend).1.requeued = 1 := by
  exact ⟨by decide, by decide, by decide⟩

/-- C1 (amended): at a sweep, every `queued` WorkItem with
`now - enqueued_at > TASK_TIMEOUT` (180s) whose resend succeeds is resent
to the work queue, gets its timestamp reset to now, and bumps the global
`requeued` counter (by the number of items requeued in the sweep).  The
tracked per-item state is only `{timestamp, status}` — there is no
`attempt_count` field to increment (see the counterexample). -/
theorem C1_sweep (s : MasterM.MasterState) (now : Int) (sendOk : String → Bool)
    (url : String) (meta : MasterM.TaskMeta)
    (hnd : (s.task_status.map Prod.fst).Nodup)
    (hmem : (url, meta) ∈ s.task_status)
    (hq : meta.status = "queued")
    (hstale : now - meta.timestamp > 180)
    (hsend : sendOk url = true) :
    MasterM.alookup url (MasterM.check_task_timeouts_once s now sendOk).1.task_status
        = some ⟨now, "queued"⟩ ∧
    MasterM.enqueueBody url ∈ (MasterM.check_task_timeouts_once s now sendOk).2 ∧
    (MasterM.check_task_timeouts_once s now sendOk).1.requeued
        = s.requeued + (s.task_status.filter (MasterM.staleP now sendOk)).length := by
  have hp : MasterM.staleP now sendOk (url, meta) = true :=
    (staleP_iff now sendOk (url, meta)).mpr ⟨hq, hstale, hsend⟩
  refine ⟨?_, ?_, ?_⟩
  · have := sweep_lookup_set now sendOk s.task_status s [] url meta hnd hmem hp
    rw [MasterM.check_task_timeouts_once, this, hq]
  · exact sweep_sent_mem now sendOk s.task_status s [] (url, meta) hmem hp
  · exact sweep_requeued now sendOk s.task_status s []

/-- C1 witness: the counterexample state at its first sweep. -/
theorem C1_sweep_witness :
    MasterM.alookup "http://a.com"
        (MasterM.check_task_timeouts_once c1sA 200 alwaysSend).1.task_status
      = some ⟨200, "queued"⟩ ∧
    MasterM.enqueueBody "http://a.com" ∈ (MasterM.check_task_timeouts_once c1sA 200 alwaysSend).2 ∧
    (MasterM.check_task_timeouts_once c1sA 200 alwaysSend).1.requeued
      = c1sA.requeued + (c1sA.task_status.filter (MasterM.staleP 200 alwaysSend)).length :=
  C1_sweep c1sA 200 alwaysSend "http://a.com" ⟨0, "queued"⟩
    (by decide) (by decide) (by decide) (by decide) (by decide)

/-! Claim C9: worker liveness classification. -/

lemma hb_batch_crawler_status :
    ∀ (msgs : List (String × Int)) (s : MasterM.MasterState),
      (MasterM.monitor_heartbeats_batch s msgs).crawler_status
        = List.foldl (fun l (m : String × Int) => MasterM.hset m.1 m.2 l) s.crawler_status msgs ∧
      (MasterM.monitor_heartbeats_batch s msgs).active_crawlers = s.active_crawlers ∧
      (MasterM.monitor_heartbeats_batch s msgs).failed_crawlers = s.failed_crawlers := by
  intro msgs
  induction msgs with
  | nil => intro s; exact ⟨rfl, rfl, rfl⟩
  | cons m rest ih =>
    intro s
    simpa [MasterM.monitor_heartbeats_batch, List.foldl_cons] using
      ih { s with crawler_status := MasterM.hset m.1 m.2 s.crawler_status }

lemma hfold_lookup :
    ∀ (msgs : List (String × Int)) (l : List (String × Int)) (cid : String),
      MasterM.hlookup cid
          (List.foldl (fun l (m : String × Int) => MasterM.hset m.1 m.2 l) l msgs)
        = match lastHeartbeat msgs cid with
          | some t => some t
          | none => MasterM.hlookup cid l := by
  intro msgs
  induction msgs with
  | nil => intro l cid; simp [lastHeartbeat]
  | cons m rest ih =>
    intro l cid
    rw [List.foldl_cons, ih]
    cases hrest : lastHeartbeat rest cid with
    | some t => simp [lastHeartbeat, hrest]
    | none =>
      simp only [lastHeartbeat, hrest, hlookup_hset]
      by_cases h : m.1 = cid <;> simp [h]

lemma health_counts (now : Int) :
    ∀ (l : List (String × Int)) (a b : Nat),
      List.foldl
          (fun (af : Nat × Nat) (p : String × Int) =>
            if now - p.2 ≤ 90 then (af.1 + 1, af.2) else (af.1, af.2 + 1))
          (a, b) l
        = (a + (l.filter (fun p => now - p.2 ≤ 90)).length,
           b + (l.filter (fun p => ¬ (now - p.2 ≤ 90))).length) := by
  intro l
  induction l with
  | nil => intro a b; simp
  | cons p rest ih =>
    intro a b
    by_cases h : now - p.2 ≤ 90
    · rw [List.foldl_cons]
      simp only [if_pos h, ih, List.filter_cons]
      simp [h]
      omega
    · rw [List.foldl_cons]
      simp only [if_neg h, ih, List.filter_cons]
      simp [h]
      omega

lemma filter_split_length (now : Int) (l : List (String × Int)) :
    (l.filter (fun p => now - p.2 ≤ 90)).length +
      (l.filter (fun p => ¬ (now - p.2 ≤ 90))).length = l.length := by
  induction l with
  | nil => simp
  | cons p rest ih =>
    by_cases h : now - p.2 ≤ 90
    · simp only [List.filter_cons]
      simp [h] at ih ⊢
      omega
    · simp only [List.filter_cons]
      simp [h] at ih ⊢
      omega

/-- C9: after draining any sequence of heartbeat messages into an empty
worker map, each worker's stored `last_seen` is its last recorded
heartbeat time, and one health pass counts as active exactly the workers
with `now - last_seen ≤ 90` and as failed exactly the others; the two
counters partition the known workers. -/
theorem C9_liveness (msgs : List (String × Int)) (now : Int) (s0 : MasterM.MasterState)
    (h0 : s0.crawler_status = []) :
    (∀ cid, MasterM.hlookup cid (MasterM.monitor_heartbeats_batch s0 msgs).crawler_status
        = lastHeartbeat msgs cid) ∧
    (MasterM.monitor_crawler_health_once (MasterM.monitor_heartbeats_batch s0 msgs) now).active_crawlers
        = ((MasterM.monitor_heartbeats_batch s0 msgs).crawler_status.filter
            (fun p => now - p.2 ≤ 90)).length ∧
    (MasterM.monitor_crawler_health_once (MasterM.monitor_heartbeats_batch s0 msgs) now).failed_crawlers
        = ((MasterM.monitor_heartbeats_batch s0 msgs).crawler_status.filter
            (fun p => ¬ (now - p.2 ≤ 90))).length ∧
    (MasterM.monitor_crawler_health_once (MasterM.monitor_heartbeats_batch s0 msgs) now).active_crawlers
        + (MasterM.monitor_crawler_health_once
            (MasterM.monitor_heartbeats_batch s0 msgs) now).failed_crawlers
        = (MasterM.monitor_heartbeats_batch s0 msgs).crawler_status.length := by
  obtain ⟨hcs, _, _⟩ := hb_batch_crawler_status msgs s0
  refine ⟨?_, ?_, ?_, ?_⟩
  · intro cid
    rw [hcs, h0, hfold_lookup msgs [] cid]
    cases lastHeartbeat msgs cid <;> simp [MasterM.hlookup]
  · simp only [MasterM.monitor_crawler_health_once, health_counts]
    simp
  · simp only [MasterM.monitor_crawler_health_once, health_counts]
    simp
  · simp only [MasterM.monitor_crawler_health_once, health_counts]
    simpa using filter_split_length now (MasterM.monitor_heartbeats_batch s0 msgs).crawler_status

/-- C9 witness: three heartbeats over two workers; w1's last beat (at 50)
is within 90s of now = 100, w2's only beat (at 0) is not. -/
theorem C9_witness :
    (∀ cid, MasterM.hlookup cid
        (MasterM.monitor_heartbeats_batch MasterM.initMaster
          [("w1", 10), ("w2", 0), ("w1", 50)]).crawler_status
      = lastHeartbeat [("w1", 10), ("w2", 0), ("w1", 50)] cid) ∧
    (MasterM.monitor_crawler_health_once
        (MasterM.monitor_heartbeats_batch MasterM.initMaster
          [("w1", 10), ("w2", 0), ("w1", 50)]) 100).active_crawlers
      = ((MasterM.monitor_heartbeats_batch MasterM.initMaster
            [("w1", 10), ("w2", 0), ("w1", 50)]).crawler_status.filter
          (fun p => 100 - p.2 ≤ 90)).length ∧
    (MasterM.monitor_crawler_health_once
        (MasterM.monitor_heartbeats_batch MasterM.initMaster
          [("w1", 10), ("w2", 0), ("w1", 50)]) 100).failed_crawlers
      = ((MasterM.monitor_heartbeats_batch MasterM.initMaster
            [("w1", 10), ("w2", 0), ("w1", 50)]).crawler_status.filter
          (fun p => ¬ (100 - p.2 ≤ 90))).length ∧
    (MasterM.monitor_crawler_health_once
        (MasterM.monitor_heartbeats_batch MasterM.initMaster
          [("w1", 10), ("w2", 0), ("w1", 50)]) 100).active_crawlers
      + (MasterM.monitor_crawler_health_once
          (MasterM.monitor_heartbeats_batch MasterM.initMaster
            [("w1", 10), ("w2", 0), ("w1", 50)]) 100).failed_crawlers
      = (MasterM.monitor_heartbeats_batch MasterM.initMaster
          [("w1", 10), ("w2", 0), ("w1", 50)]).crawler_status.length :=
  C9_liveness [("w1", 10), ("w2", 0), ("w1", 50)] 100 MasterM.initMaster rfl

/-! Claim C8: robots fetch failure caches a fail-open entry. -/

lemma cacheLookup_cacheSet_self (cache : List (String × Robots.RFP × Int)) (base : String)
    (v : Robots.RFP × Int) :
    CrawlerM.cacheLookup (CrawlerM.cacheSet cache base v) base = some v := by
  induction cache with
  | nil => simp [CrawlerM.cacheSet, CrawlerM.cacheLookup]
  | cons e rest ih =>
    by_cases h : e.1 = base
    · simp [CrawlerM.cacheSet, CrawlerM.cacheLookup, h]
    · simp only [CrawlerM.cacheSet]
      rw [if_neg h]
      simpa [CrawlerM.cacheLookup, List.find?, h] using ih

lemma getRobotsFetch_failopen (c : CrawlerM.CrawlerState) (base : String) (env : CrawlerM.Env)
    (hfail : env.fetchRobots base = none ∨
      ∀ st text, env.fetchRobots base = some (st, text) → st ≠ 200) :
    CrawlerM.getRobotsFetch c base env =
      (Robots.allowAllRFP,
        { c with robots_cache :=
            CrawlerM.cacheSet c.robots_cache base (Robots.allowAllRFP, env.now) }) := by
  rcases hfail with h | h
  · simp [CrawlerM.getRobotsFetch, h]
  · cases hf : env.fetchRobots base with
    | none => simp [CrawlerM.getRobotsFetch, hf]
    | some p =>
      have hne : p.1 ≠ 200 := h p.1 p.2 (by rw [hf])
      simp [CrawlerM.getRobotsFetch, hf, hne]

lemma can_fetch_allowAll (cs : CrawlerM.CrawlerState) (url2 : String) (env2 : CrawlerM.Env)
    (parsed2 : Urllib.ParseResult) (ts : Int)
    (hparse2 : Urllib.urlparseE url2 = .ok parsed2)
    (hhit : CrawlerM.cacheLookup cs.robots_cache (parsed2.scheme ++ "://" ++ parsed2.netloc)
      = some (Robots.allowAllRFP, ts))
    (hfresh : env2.now - ts < 3600) :
    CrawlerM.can_fetchE cs url2 env2 = .ok (true, cs) := by
  rw [CrawlerM.can_fetchE, CrawlerM.getRobotsParserE, hparse2]
  simp only [hhit, hfresh, if_pos]
  simp [Robots.RFP.canFetchE, Robots.RFP.crawlDelay, Robots.allowAllRFP]

/-- C8: when the robots.txt fetch for a domain errors or returns a
non-200 status (on a cache miss or an expired entry), the crawler caches
an allow-all parser stamped at now — the entry then lives under the same
3600s TTL — and while that entry is fresh, `can_fetch` for ANY url on
that domain returns true without touching the worker's counters, its
delay, or the robots oracle (no re-fetch before expiry: the second
environment's robots oracle is arbitrary). -/
theorem C8_failopen (c : CrawlerM.CrawlerState) (url base : String) (env : CrawlerM.Env)
    (parsed : Urllib.ParseResult)
    (hparse : Urllib.urlparseE url = .ok parsed)
    (hbase : base = parsed.scheme ++ "://" ++ parsed.netloc)
    (hmiss : ∀ p ts, CrawlerM.cacheLookup c.robots_cache base = some (p, ts) →
      env.now - ts ≥ 3600)
    (hfail : env.fetchRobots base = none ∨
      ∀ st text, env.fetchRobots base = some (st, text) → st ≠ 200) :
    CrawlerM.getRobotsParserE c url env =
      .ok (Robots.allowAllRFP,
        { c with robots_cache :=
            CrawlerM.cacheSet c.robots_cache base (Robots.allowAllRFP, env.now) }) ∧
    (∀ (env2 : CrawlerM.Env) (url2 : String) (parsed2 : Urllib.ParseResult),
      Urllib.urlparseE url2 = .ok parsed2 →
      parsed2.scheme ++ "://" ++ parsed2.netloc = base →
      env2.now - env.now < 3600 →
      CrawlerM.can_fetchE
          { c with robots_cache :=
              CrawlerM.cacheSet c.robots_cache base (Robots.allowAllRFP, env.now) }
          url2 env2 =
        .ok (true,
          { c with robots_cache :=
              CrawlerM.cacheSet c.robots_cache base (Robots.allowAllRFP, env.now) })) := by
  constructor
  · rw [CrawlerM.getRobotsParserE, hparse]
    cases hc : CrawlerM.cacheLookup c.robots_cache (parsed.scheme ++ "://" ++ parsed.netloc) with
    | none =>
      simp only [hc]
      rw [getRobotsFetch_failopen c _ env (hbase ▸ hfail)]
      rw [hbase]
    | some pts =>
      obtain ⟨p, ts⟩ := pts
      have hold : ¬ env.now - ts < 3600 := by
        have := hmiss p ts (by rw [hbase]; exact hc)
        omega
      simp only [hc, hold, if_false]
      rw [getRobotsFetch_failopen c _ env (hbase ▸ hfail)]
      rw [hbase]
  · intro env2 url2 parsed2 hparse2 hbase2 hfresh
    refine can_fetch_allowAll _ url2 env2 parsed2 env.now hparse2 ?_ hfresh
    rw [hbase2]
    exact cacheLookup_cacheSet_self c.robots_cache base _

/-- C8 witness: a 404 robots fetch for `http://y.com` caches the
allow-all parser; a later `can_fetch` within the TTL answers true for
another url on the domain even though the (unconsulted) robots oracle of
the second environment would deny everything. -/
theorem C8_failopen_witness :
    CrawlerM.getRobotsParserE CrawlerM.initCrawler "http://y.com/a" robots404Env =
      .ok (Robots.allowAllRFP, c8cached) ∧
    CrawlerM.can_fetchE c8cached "http://y.com/other" c8env2 = .ok (true, c8cached) := by
  have h := C8_failopen CrawlerM.initCrawler "http://y.com/a" "http://y.com" robots404Env
    ⟨"http", "y.com", "/a", "", "", ""⟩ (by decide) (by decide)
    (by intro p ts hh; simp [CrawlerM.cacheLookup, CrawlerM.initCrawler] at hh)
    (Or.inr (by intro st text hh; simp [robots404Env, denyEnv] at hh; omega))
  have hc : ({ CrawlerM.initCrawler with
      robots_cache := CrawlerM.cacheSet CrawlerM.initCrawler.robots_cache "http://y.com"
        (Robots.allowAllRFP, robots404Env.now) } : CrawlerM.CrawlerState) = c8cached := by
    decide
  constructor
  · rw [← hc]; exact h.1
  · rw [← hc]
    exact h.2 c8env2 "http://y.com/other" ⟨"http", "y.com", "/other", "", "", ""⟩
      (by decide) (by decide) (by decide)
